import Mathlib

/-!
Shallow embedding of the odysee-channel-dl synchronization engine
(`src/downloadChannel.js` and the listing boundary of `src/lib/odysee.js`).

The engine walks a paginated listing, decides per item whether to stop
(age cutoff, lookahead dedup), skip (output file already on disk) or
materialize (resolve a download URL, invoke the external downloader),
maintains a JSON cache of records across runs, and optionally emits an
RSS feed sorted by publication date.

External effects are modelled explicitly:
- the listing API response for each successive page is a `PageResult`
  (`err` models a transport/protocol failure of `getChannelListings`);
- the metadata resolution `getDownloadUrl` and the downloader exit
  status are oracles attached to each `Item` (`resolve`, `dlOk`);
- the output directory is a list of file paths (`St.disk`);
- the persisted cache file is an `Option (List CacheRecord)`.
-/

namespace OdyseeDL

/-- Characters replaced by `filenameSafe`; the regex class from
`downloadChannel.js` line 77: backslash, slash, colon, star, question
mark, double quote, angle brackets, pipe. -/
def badChar (c : Char) : Bool :=
  c = '\\' || c = '/' || c = ':' || c = '*' || c = '?' || c = '"' || c = '<' || c = '>' || c = '|'

/-- One character of the sanitization: a bad character becomes an underscore. -/
def sanitizeChar (c : Char) : Char :=
  if badChar c then '_' else c

/-- `filenameSafe` from `downloadChannel.js` lines 76-78:
`name.replace(/[\\/:*?"<>|]/g, underscore)`. -/
def filenameSafe (name : String) : String :=
  String.mk (name.data.map sanitizeChar)

/-- `path.basename`: the part of a path after the last slash. -/
def basename (p : String) : String :=
  String.mk (p.data.foldl (fun acc c => if c = '/' then [] else acc ++ [c]) [])

/-- Outcome of `odysee.getDownloadUrl` for one item (an oracle for the
external metadata-resolution collaborator): it can throw, resolve to a
response with no `contentUrl`, or yield a direct content URL. -/
inductive Resolve where
  | fails
  | noUrl
  | ok (contentUrl : String)
deriving DecidableEq

/-- One listing entry (`{ title, date, url }` as produced by
`odysee.getChannelListings`), together with the oracles for what the
external collaborators would do for this item: `resolve` is the outcome
of `getDownloadUrl`, `dlOk` tells whether the `downloadToFile`
invocation of the external tool succeeds (exit code 0). -/
structure Item where
  title : String
  date : Option Int
  url : String
  resolve : Resolve
  dlOk : Bool
deriving DecidableEq

/-- A cache / feed record (`rssItems` entries, `feed.json` items):
`{ title, file, url, date, description, sourceUrl }`.  `date` is the
millisecond timestamp of the `Date` stored in the record (`none` when
the listing entry had no usable timestamp). -/
structure CacheRecord where
  title : String
  file : String
  url : String
  date : Option Int
  description : String
  sourceUrl : String
deriving DecidableEq

/-- The configuration surface of `processChannel` that the
synchronization logic reads. `oldestDate` is the cutoff as a
millisecond timestamp (the `Date` value), `none` when unset. -/
structure Config where
  outputDir : String
  pageSize : Nat
  oldestDate : Option Int
  audioOnly : Bool
  rss : Bool
  podcastUrlPrefix : String
deriving DecidableEq

/-- The output extension chosen by the audio-only toggle. -/
def extOf (cfg : Config) : String :=
  if cfg.audioOnly then ".m4a" else ".mp4"

/-- `created` for an item (`downloadChannel.js` line 190):
`item.date ? new Date(item.date * 1000) : null`.  A timestamp of `0` is
falsy in JavaScript, hence treated like a missing date. -/
def createdOf (it : Item) : Option Int :=
  match it.date with
  | none => none
  | some d => if d = 0 then none else some (d * 1000)

/-- Set insertion for the known-URL / known-basename sets, modelled on
lists: adding an element already present leaves the set unchanged. -/
def addSet (x : String) (l : List String) : List String :=
  if l.contains x then l else x :: l

/-- The mutable state of one `processChannel` run: the accumulated
record list (`rssItems`), the known-source-URL and known-basename sets,
the set of files present in the output directory, the source URLs
successfully downloaded this run (`fetched`, for bookkeeping of
materializations), the number of listing fetches issued, the `processing`
flag of the while loop, and whether a listing fetch failed. -/
structure St where
  records : List CacheRecord
  knownUrls : List String
  knownBasenames : List String
  disk : List String
  fetched : List String
  fetchCount : Nat
  processing : Bool
  listErr : Bool
deriving DecidableEq

/-- The lookahead dedup test (`downloadChannel.js` line 181): scan the
items after the current one on this page for a known source URL or a
known prospective output basename (`filenameSafe(title) + ext`). -/
def lookaheadKnown (cfg : Config) (st : St) (rest : List Item) : Bool :=
  rest.any fun nxt =>
    st.knownUrls.contains nxt.url
      || st.knownBasenames.contains (filenameSafe nxt.title ++ extOf cfg)

/-- The age-cutoff test (`downloadChannel.js` line 191):
`oldestDate && created && created < oldestDate`. -/
def cutoffHit (cfg : Config) (it : Item) : Bool :=
  match cfg.oldestDate, createdOf it with
  | some t, some c => c < t
  | _, _ => false

/-- The output path of an item (`downloadChannel.js` lines 197-203):
`path.join(outputDir, filenameSafe(item.title or untitled) + ext)`. -/
def outPathOf (cfg : Config) (it : Item) : String :=
  cfg.outputDir ++ "/" ++ filenameSafe (if it.title = "" then "untitled" else it.title)
    ++ extOf cfg

/-- The record pushed onto `rssItems` for an item
(`downloadChannel.js` lines 207-214 and 240-247). -/
def recordOf (cfg : Config) (it : Item) (out : String) : CacheRecord :=
  { title := it.title
    file := out
    url := cfg.podcastUrlPrefix ++ "/" ++ basename out
    date := createdOf it
    description := it.title
    sourceUrl := it.url }

/-- Processing of a single item past the cutoff check
(`downloadChannel.js` lines 197-256): skip-and-record when the output
path exists on disk; otherwise resolve the download URL (failure or a
missing `contentUrl` skips the item), invoke the downloader, and on
success record the item and register its URL and basename as known.  On
download failure the partially written file is removed again
(`fs.unlinkSync` in the catch), so the disk is restored. -/
def processOne (cfg : Config) (st : St) (it : Item) : St :=
  let out := outPathOf cfg it
  if st.disk.contains out then
    if cfg.rss then { st with records := st.records ++ [recordOf cfg it out] } else st
  else
    match it.resolve with
    | .fails => st
    | .noUrl => st
    | .ok _ =>
      if it.dlOk then
        let st1 : St := { st with disk := out :: st.disk, fetched := st.fetched ++ [it.url] }
        if cfg.rss then
          { st1 with
            records := st1.records ++ [recordOf cfg it out]
            knownUrls := addSet it.url st1.knownUrls
            knownBasenames := addSet (basename out) st1.knownBasenames }
        else st1
      else
        { st with disk := (out :: st.disk).erase out }

/-- The per-page item loop (`downloadChannel.js` lines 176-257).  For
each item: the lookahead over the remaining items of the page may clear
the `processing` flag (it does not leave the loop); the age cutoff
clears the flag and breaks out of the page; otherwise the item is
processed and iteration continues with the rest of the page. -/
def procItems (cfg : Config) : St → List Item → St
  | st, [] => st
  | st, it :: rest =>
    let st1 := if lookaheadKnown cfg st rest then { st with processing := false } else st
    if cutoffHit cfg it then { st1 with processing := false }
    else procItems cfg (processOne cfg st1 it) rest

/-- One page of the listing API: either a transport/protocol failure of
`getChannelListings` or the returned item list. -/
inductive PageResult where
  | err
  | ok (items : List Item)
deriving DecidableEq

/-- The pagination while loop (`downloadChannel.js` lines 159-264),
driven by the successive listing responses.  A fetch failure breaks out
of the loop (fail-stop); an empty page breaks; after the item loop the
walk stops when `processing` was cleared or the page was short
(`items.length < pageSize`); otherwise the next page is fetched. -/
def walkPages (cfg : Config) : St → List PageResult → St
  | st, [] => st
  | st, pr :: rest =>
    if st.processing then
      match pr with
      | .err => { st with fetchCount := st.fetchCount + 1, listErr := true }
      | .ok items =>
        let stf : St := { st with fetchCount := st.fetchCount + 1 }
        if items.isEmpty then stf
        else
          let st2 := procItems cfg stf items
          if st2.processing then
            if items.length < cfg.pageSize then st2
            else walkPages cfg st2 rest
          else st2
    else st

/-- The initial `SyncState` of a run (`downloadChannel.js` lines
138-157): with the feed option enabled and a cache file present, the
cached records seed `rssItems` and the known-URL / known-basename sets
(fields are only registered when truthy); otherwise everything starts
empty.  `disk` is the initial content of the output directory. -/
def initSt (rss : Bool) (cache : Option (List CacheRecord)) (disk : List String) : St :=
  let base : St :=
    { records := [], knownUrls := [], knownBasenames := [], disk := disk
      fetched := [], fetchCount := 0, processing := true, listErr := false }
  match rss, cache with
  | true, some its =>
    { base with
      records := its
      knownUrls := its.foldl (fun s it => if it.sourceUrl = "" then s else addSet it.sourceUrl s) []
      knownBasenames :=
        its.foldl (fun s it => if it.file = "" then s else addSet (basename it.file) s) [] }
  | _, _ => base

/-- The sort key of the feed comparator
(`(b.date||0) - (a.date||0)`, `downloadChannel.js` line 273): a record
with no date counts as timestamp `0`. -/
def sortKey (r : CacheRecord) : Int :=
  match r.date with
  | none => 0
  | some d => d

/-- The order underlying the feed sort: `a` may precede `b` when the
key of `b` is at most the key of `a` (descending). -/
def recGE (a b : CacheRecord) : Prop :=
  sortKey b ≤ sortKey a

instance : DecidableRel recGE := fun a b => by
  unfold recGE; infer_instance

instance : IsTotal CacheRecord recGE :=
  ⟨fun a b => le_total (sortKey b) (sortKey a)⟩

instance : IsTrans CacheRecord recGE :=
  ⟨fun _ _ _ h1 h2 => le_trans h2 h1⟩

/-- The feed sort (`rssItems.sort((a,b) => (b.date||0) - (a.date||0))`,
`downloadChannel.js` line 273): a stable sort, descending by `sortKey`,
modelled by stable insertion sort. -/
def sortRecords (l : List CacheRecord) : List CacheRecord :=
  List.insertionSort recGE l

/-- The observable outcome of one `processChannel` run: the final state,
the record list written to the cache file (`feed.json`, line 267, written
unconditionally after the walk), and the ordered feed entries
(`feed.xml`, lines 270-274, only with the feed option). -/
structure RunResult where
  final : St
  saved : List CacheRecord
  feed : Option (List CacheRecord)
deriving DecidableEq

/-- One full `processChannel` run against the listing responses
`pages`, starting from a persisted cache and an output-directory
content. -/
def run (cfg : Config) (cache : Option (List CacheRecord)) (disk : List String)
    (pages : List PageResult) : RunResult :=
  let fin := walkPages cfg (initSt cfg.rss cache disk) pages
  { final := fin
    saved := fin.records
    feed := if cfg.rss then some (sortRecords fin.records) else none }

end OdyseeDL

namespace OdyseeDL

/-! ### Basic facts about the per-item step and the page loop -/

lemma processOne_processing (cfg : Config) (st : St) (it : Item) :
    (processOne cfg st it).processing = st.processing := by
  unfold processOne
  dsimp only
  repeat' split
  all_goals rfl

lemma processOne_fetchCount (cfg : Config) (st : St) (it : Item) :
    (processOne cfg st it).fetchCount = st.fetchCount := by
  unfold processOne
  dsimp only
  repeat' split
  all_goals rfl

lemma procItems_fetchCount (cfg : Config) :
    ∀ (l : List Item) (st : St), (procItems cfg st l).fetchCount = st.fetchCount := by
  intro l
  induction l with
  | nil => intro st; rfl
  | cons it rest ih =>
    intro st
    simp only [procItems]
    by_cases hc : cutoffHit cfg it <;> by_cases hl : lookaheadKnown cfg st rest <;>
      simp [hc, hl, ih, processOne_fetchCount]

lemma procItems_processing_false (cfg : Config) :
    ∀ (l : List Item) (st : St), st.processing = false →
      (procItems cfg st l).processing = false := by
  intro l
  induction l with
  | nil => intro st h; simpa [procItems] using h
  | cons it rest ih =>
    intro st h
    simp only [procItems]
    by_cases hc : cutoffHit cfg it <;> by_cases hl : lookaheadKnown cfg st rest <;>
      simp [hc, hl]
    · exact ih _ (by simp [processOne_processing])
    · exact ih _ (by simp [processOne_processing, h])

lemma walkPages_of_not_processing (cfg : Config) (st : St) (ps : List PageResult)
    (h : st.processing = false) : walkPages cfg st ps = st := by
  cases ps with
  | nil => rfl
  | cons p rest => simp [walkPages, h]

end OdyseeDL

namespace OdyseeDL

/-! ### Concrete fixtures -/

/-- A feed-enabled configuration. -/
def feedCfg : Config :=
  { outputDir := "o", pageSize := 50, oldestDate := none, audioOnly := false,
    rss := true, podcastUrlPrefix := "p" }

/-- A single channel item whose resolution and download succeed. -/
def itemA : Item :=
  { title := "a", date := some 1000, url := "ua", resolve := .ok "cu", dlOk := true }

/-- First sync of a one-item channel: empty cache, empty output directory. -/
def runOnce : RunResult := run feedCfg none [] [.ok [itemA]]

/-- Second sync against the unchanged listing, starting from the cache
file and the output directory the first run produced. -/
def runTwice : RunResult := run feedCfg (some runOnce.saved) runOnce.final.disk [.ok [itemA]]

/-- Claim C1: running the sync twice against an unchanged remote listing,
with the feed option enabled, is NOT idempotent in this code: the second
run performs no re-fetch (the re-fetch half of the claim holds), but the
already-exists skip path pushes a record onto the in-memory list without
consulting the known-URL set, so the second run appends a duplicate
CacheRecord and the persisted cache file differs from the first run's.
This theorem evaluates the model at the failing input: a one-item
channel synced twice. -/
theorem c1_second_run_appends_duplicate :
    runTwice.final.fetched = [] ∧
    runTwice.saved ≠ runOnce.saved ∧
    runTwice.feed ≠ runOnce.feed ∧
    runTwice.saved.length = 2 ∧
    ¬ (runTwice.saved.map (fun r => r.sourceUrl)).Nodup := by
  decide

/-- Two listing items with the same title (hence, per
`odysee.getChannelListings`, the same derived URL). -/
def itemT1 : Item :=
  { title := "t", date := some 2000, url := "ut", resolve := .ok "cu", dlOk := true }

/-- Second occurrence of the same title later on the same page. -/
def itemT2 : Item :=
  { title := "t", date := some 1500, url := "ut", resolve := .ok "cu", dlOk := true }

/-- Claim C2: uniqueness of `sourceUrl` and `basename(outputFile)` across
CacheRecords is violated by the code within a single run: after the
first item with title t is downloaded, the second item with the same
title hits the already-exists skip path, which appends a record with the
same source URL and the same output basename without any dedup check.
This theorem evaluates the model at the failing input: one page
containing two items with the same title. -/
theorem c2_duplicate_sourceurl_and_basename :
    ¬ ((run feedCfg none [] [.ok [itemT1, itemT2]]).saved.map
        (fun r => r.sourceUrl)).Nodup ∧
    ¬ ((run feedCfg none [] [.ok [itemT1, itemT2]]).saved.map
        (fun r => basename r.file)).Nodup := by
  decide

/-- Item constructor for the lookahead scenario: resolution and download
succeed, no timestamp. -/
def mkIt (t u : String) : Item :=
  { title := t, date := none, url := u, resolve := .ok "cu", dlOk := true }

/-- A cached record for the third item of the lookahead page (its file
is no longer on disk, but its source URL is known from the cache). -/
def cachedRec3 : CacheRecord :=
  { title := "t3", file := "o/t3.mp4", url := "p/t3.mp4", date := some 5000,
    description := "t3", sourceUrl := "u3" }

/-- Feed-enabled configuration with page size 5. -/
def lookCfg : Config := { feedCfg with pageSize := 5 }

/-- A full page of five items whose third item has a known source URL. -/
def lookPage : List Item :=
  [mkIt "t1" "u1", mkIt "t2" "u2", mkIt "t3" "u3", mkIt "t4" "u4", mkIt "t5" "u5"]

/-- Claim C3 counterexample: with item 3 of a full page of 5 known from
the cache, the claim says the walk processes items 1 and 2 and then
halts.  In the code the lookahead only clears the `processing` flag and
the `for` loop still runs over the whole page, so items 3, 4 and 5 are
also processed (here: all five are materialized, since only the cache
knows item 3 and its file is not on disk).  Page 2 is indeed never
requested (`fetchCount = 1`). -/
theorem c3_counterexample :
    (run lookCfg (some [cachedRec3]) [] [.ok lookPage, .ok [mkIt "t6" "u6"]]).final.fetched
        = ["u1", "u2", "u3", "u4", "u5"] ∧
    (run lookCfg (some [cachedRec3]) [] [.ok lookPage, .ok [mkIt "t6" "u6"]]).final.fetchCount
        = 1 := by
  decide

/-- Configuration with an oldest-date cutoff of 2023-01-02 (epoch
milliseconds) and no feed. -/
def cutCfg : Config :=
  { outputDir := "o", pageSize := 50, oldestDate := some 1672617600000,
    audioOnly := false, rss := false, podcastUrlPrefix := "p" }

/-- An item whose `publishedAt` is the non-null timestamp `0`. -/
def epochItem : Item :=
  { title := "z", date := some 0, url := "uz", resolve := .ok "cu", dlOk := true }

/-- Claim C4 counterexample: an item with the non-null `publishedAt`
timestamp `0` converts to 1970-01-01, far older than the 2023 cutoff,
yet the code's truthiness guard (`item.date ? ... : null`) treats `0`
like a missing date: processing does not stop and the item IS
materialized, contradicting the claim for this input. -/
theorem c4_counterexample :
    (run cutCfg none [] [.ok [epochItem]]).final.fetched = ["uz"] := by
  decide

/-- A record with no publication date. -/
def recNoDate : CacheRecord :=
  { title := "n", file := "n.mp4", url := "", date := none, description := "",
    sourceUrl := "sn" }

/-- A record with a past (positive) publication timestamp. -/
def recPast : CacheRecord :=
  { title := "q", file := "q.mp4", url := "", date := some 1000, description := "",
    sourceUrl := "sq" }

/-- Claim C5 counterexample: the feed comparator is
`(b.date||0) - (a.date||0)`, so a record with a null date sorts with key
`0` (the epoch) — i.e. as the OLDEST entry — not as "now" ahead of all
past-dated records as the claim states: here the null-dated record ends
up after the past-dated one. -/
theorem c5_counterexample :
    sortRecords [recNoDate, recPast] = [recPast, recNoDate] ∧
    sortRecords [recNoDate, recPast] ≠ [recNoDate, recPast] := by
  decide

end OdyseeDL

namespace OdyseeDL

/-- Claim C3 (amended): finding a known source URL or known prospective
output basename among the items after the current one on the current
page prevents any further page request — but the walk does NOT halt
after the items before the known one: the lookahead only clears the
`processing` flag, so the walk finishes the ENTIRE current page (every
remaining item is still skipped or materialized by the usual per-item
rules) and only then stops; exactly one listing fetch is issued for this
page and none for any later page. -/
theorem c3_lookahead_halts_after_full_page (cfg : Config) (st : St) (x : Item)
    (rest : List Item) (restPages : List PageResult)
    (h1 : st.processing = true) (h2 : lookaheadKnown cfg st rest = true) :
    walkPages cfg st (.ok (x :: rest) :: restPages)
        = procItems cfg { st with fetchCount := st.fetchCount + 1 } (x :: rest) ∧
    (walkPages cfg st (.ok (x :: rest) :: restPages)).fetchCount = st.fetchCount + 1 := by
  obtain ⟨re, ku, kb, dk, fe, fc, pr, le⟩ := st
  dsimp only at h1 h2 ⊢
  subst h1
  have hlook : lookaheadKnown cfg ⟨re, ku, kb, dk, fe, fc + 1, true, le⟩ rest = true := h2
  have hproc :
      (procItems cfg ⟨re, ku, kb, dk, fe, fc + 1, true, le⟩ (x :: rest)).processing = false := by
    simp only [procItems, hlook, if_true]
    by_cases hc : cutoffHit cfg x
    · simp [hc]
    · simp only [hc, Bool.false_eq_true, if_false]
      exact procItems_processing_false cfg rest _ (by simp [processOne_processing])
  have heq : walkPages cfg ⟨re, ku, kb, dk, fe, fc, true, le⟩ (.ok (x :: rest) :: restPages)
      = procItems cfg ⟨re, ku, kb, dk, fe, fc + 1, true, le⟩ (x :: rest) := by
    simp [walkPages, hproc]
  exact ⟨heq, by rw [heq, procItems_fetchCount]⟩

/-- Witness for the amended claim C3 at the five-item page with the
third item known from the cache. -/
theorem c3_lookahead_witness :
    (initSt true (some [cachedRec3]) []).processing = true ∧
    lookaheadKnown lookCfg (initSt true (some [cachedRec3]) [])
        [mkIt "t2" "u2", mkIt "t3" "u3", mkIt "t4" "u4", mkIt "t5" "u5"] = true ∧
    walkPages lookCfg (initSt true (some [cachedRec3]) [])
        (.ok (mkIt "t1" "u1" :: [mkIt "t2" "u2", mkIt "t3" "u3", mkIt "t4" "u4", mkIt "t5" "u5"])
          :: [.ok [mkIt "t6" "u6"]])
      = procItems lookCfg
          { initSt true (some [cachedRec3]) [] with
            fetchCount := (initSt true (some [cachedRec3]) []).fetchCount + 1 }
          (mkIt "t1" "u1" :: [mkIt "t2" "u2", mkIt "t3" "u3", mkIt "t4" "u4", mkIt "t5" "u5"]) := by
  refine ⟨by decide, by decide, ?_⟩
  exact (c3_lookahead_halts_after_full_page lookCfg (initSt true (some [cachedRec3]) [])
    (mkIt "t1" "u1") [mkIt "t2" "u2", mkIt "t3" "u3", mkIt "t4" "u4", mkIt "t5" "u5"]
    [.ok [mkIt "t6" "u6"]] (by decide) (by decide)).1

/-- Claim C4 (amended): for every run with a configured oldest-date
threshold, when an item's non-null AND NONZERO `publishedAt` converts to
a timestamp older than the threshold, processing stops immediately: the
state is unchanged except that the `processing` flag is cleared, so
neither that item nor any later item on this page is materialized, and a
state with a cleared flag fetches no further page.  (A `publishedAt` of
exactly `0` is treated by the code like a missing date and is exempt —
see the counterexample.) -/
theorem c4_cutoff_stops_immediately (cfg : Config) (st : St) (it : Item)
    (rest : List Item) (t d : Int)
    (h1 : cfg.oldestDate = some t) (h2 : it.date = some d) (h3 : d ≠ 0)
    (h4 : d * 1000 < t) :
    procItems cfg st (it :: rest) = { st with processing := false } ∧
    ∀ (ps : List PageResult) (st2 : St), st2.processing = false →
      walkPages cfg st2 ps = st2 := by
  have hcut : cutoffHit cfg it = true := by
    simp [cutoffHit, createdOf, h1, h2, h3, h4]
  constructor
  · simp only [procItems, hcut, if_true]
    by_cases hl : lookaheadKnown cfg st rest <;> simp [hl]
  · exact fun ps st2 h => walkPages_of_not_processing cfg st2 ps h

/-- Witness for the amended claim C4: the spec's cutoff scenario, at the
second item (dated 2023-01-01, cutoff 2023-01-02). -/
theorem c4_cutoff_witness :
    cutCfg.oldestDate = some 1672617600000 ∧
    (mkIt "d2" "v2").date = none ∧
    procItems cutCfg (initSt false none [])
        ({ mkIt "d2" "v2" with date := some 1672531200 }
          :: [{ mkIt "d3" "v3" with date := some 1667260800 }])
      = { initSt false none [] with processing := false } := by
  refine ⟨by decide, by decide, ?_⟩
  exact (c4_cutoff_stops_immediately cutCfg (initSt false none [])
    { mkIt "d2" "v2" with date := some 1672531200 }
    [{ mkIt "d3" "v3" with date := some 1667260800 }]
    1672617600000 1672531200 rfl rfl (by decide) (by decide)).1

/-- Claim C7: when an item reaches the download step (not cut off, not
on disk, resolution yielded a content URL) and the downloader fails
(nonzero exit or process error), the item leaves the state untouched:
the partially written file is removed again (the disk is exactly as
before), no CacheRecord is appended, the known-URL and known-basename
sets are unchanged, and the walk continues with the next item of the
page. -/
theorem c7_failed_download_is_isolated (cfg : Config) (st : St) (it : Item)
    (rest : List Item) (u : String)
    (h1 : st.disk.contains (outPathOf cfg it) = false)
    (h2 : it.resolve = .ok u) (h3 : it.dlOk = false)
    (h4 : cutoffHit cfg it = false) :
    processOne cfg st it = st ∧
    procItems cfg st (it :: rest) =
      procItems cfg
        (if lookaheadKnown cfg st rest then { st with processing := false } else st) rest := by
  have key : ∀ s : St, s.disk.contains (outPathOf cfg it) = false →
      processOne cfg s it = s := by
    intro s hs
    have hs' : outPathOf cfg it ∉ s.disk := by simpa using hs
    unfold processOne
    dsimp only
    simp [hs', h2, h3, List.erase_cons_head]
  constructor
  · exact key st h1
  · simp only [procItems, h4, Bool.false_eq_true, if_false]
    by_cases hl : lookaheadKnown cfg st rest <;> simp only [hl, if_true,
      Bool.false_eq_true, if_false]
    · rw [key { st with processing := false } h1]
    · rw [key st h1]

/-- Witness for claim C7: a failing download of a fresh item followed by
one more item; the failing item contributes nothing to the state. -/
theorem c7_failed_download_witness :
    (initSt true none []).disk.contains
        (outPathOf feedCfg { itemA with dlOk := false }) = false ∧
    processOne feedCfg (initSt true none []) { itemA with dlOk := false }
        = initSt true none [] ∧
    procItems feedCfg (initSt true none []) [{ itemA with dlOk := false }, itemT1]
      = procItems feedCfg
          (if lookaheadKnown feedCfg (initSt true none []) [itemT1] then
            { initSt true none [] with processing := false }
          else initSt true none []) [itemT1] := by
  refine ⟨by decide, ?_, ?_⟩
  · exact (c7_failed_download_is_isolated feedCfg (initSt true none [])
      { itemA with dlOk := false } [itemT1] "cu" (by decide) rfl rfl (by decide)).1
  · exact (c7_failed_download_is_isolated feedCfg (initSt true none [])
      { itemA with dlOk := false } [itemT1] "cu" (by decide) rfl rfl (by decide)).2

/-- Claim C8: a transport/protocol failure of a page-listing fetch stops
the walk for the remainder of the run — whatever pages might have
followed, no later page is requested and the state is unchanged except
for counting the failed fetch and flagging the error — and the run still
persists the accumulated records to the cache file afterwards (the save
is unconditional, after the loop). -/
theorem c8_listing_error_failstop (cfg : Config) (st : St) (rest : List PageResult)
    (cache : Option (List CacheRecord)) (disk : List String) (ps : List PageResult)
    (h : st.processing = true) :
    walkPages cfg st (.err :: rest)
        = { st with fetchCount := st.fetchCount + 1, listErr := true } ∧
    (run cfg cache disk ps).saved = (walkPages cfg (initSt cfg.rss cache disk) ps).records := by
  exact ⟨by simp [walkPages, h], rfl⟩

/-- Witness for claim C8: a run whose second page fetch fails; the first
page's materialized item is still in the saved cache. -/
theorem c8_listing_error_witness :
    (initSt true none []).processing = true ∧
    walkPages feedCfg (initSt true none []) [.err, .ok [itemA]]
        = { initSt true none [] with fetchCount := 1, listErr := true } ∧
    (run feedCfg none [] [.ok [itemA], .err]).saved
        = (walkPages feedCfg (initSt true none []) [.ok [itemA], .err]).records := by
  refine ⟨by decide, ?_, ?_⟩
  · exact (c8_listing_error_failstop feedCfg (initSt true none []) [.ok [itemA]]
      none [] [.ok [itemA], .err] (by decide)).1
  · exact (c8_listing_error_failstop feedCfg (initSt true none []) [.ok [itemA]]
      none [] [.ok [itemA], .err] (by decide)).2

end OdyseeDL

namespace OdyseeDL

/-! ### Stability of the feed sort -/

lemma filter_orderedInsert (k : Int) (a : CacheRecord) :
    ∀ l : List CacheRecord,
      (List.orderedInsert recGE a l).filter (fun r => sortKey r == k)
        = if sortKey a == k then a :: l.filter (fun r => sortKey r == k)
          else l.filter (fun r => sortKey r == k) := by
  intro l
  induction l with
  | nil =>
    simp only [List.orderedInsert_nil, List.filter_cons, List.filter_nil]
  | cons y ys ih =>
    by_cases hr : recGE a y
    · simp only [List.orderedInsert, if_pos hr, List.filter_cons]
    · have hlt : sortKey a < sortKey y := not_le.mp fun hle => hr hle
      simp only [List.orderedInsert, if_neg hr, List.filter_cons]
      by_cases hpa : (sortKey a == k) = true
      · have hk : sortKey a = k := by simpa using hpa
        have hpy : (sortKey y == k) = false := by
          have : sortKey y ≠ k := by omega
          simpa using this
        simp [hpa, hpy, ih]
      · have hpa' : (sortKey a == k) = false := by simpa using hpa
        simp only [hpa', Bool.false_eq_true, if_false] at ih ⊢
        by_cases hpy : (sortKey y == k) = true <;> simp [hpy, ih]

lemma filter_insertionSort (k : Int) :
    ∀ l : List CacheRecord,
      (List.insertionSort recGE l).filter (fun r => sortKey r == k)
        = l.filter (fun r => sortKey r == k) := by
  intro l
  induction l with
  | nil => rfl
  | cons a l ih =>
    simp only [List.insertionSort, filter_orderedInsert, ih, List.filter_cons]

/-- Claim C5 (amended): the feed lists its records sorted by
`publishedAt` descending with ties broken by original encounter order
(a stable sort), regardless of the order records were appended — but a
record with a null `publishedAt` sorts with key `0` (the epoch), i.e.
as the OLDEST entry, after every record with a positive timestamp, not
as "now".  Formally: the sorted list is a permutation of the input,
it is sorted with respect to descending `sortKey` (null maps to `0`),
and for every key the subsequence of records with that key is exactly
the input's subsequence with that key (stability). -/
theorem c5_feed_sorted_desc_stable (l : List CacheRecord) :
    (sortRecords l).Perm l ∧
    List.Sorted recGE (sortRecords l) ∧
    ∀ k : Int, (sortRecords l).filter (fun r => sortKey r == k)
      = l.filter (fun r => sortKey r == k) :=
  ⟨List.perm_insertionSort recGE l, List.sorted_insertionSort recGE l,
    fun k => filter_insertionSort k l⟩

/-! ### Filename sanitization -/

lemma getD_map_sanitize : ∀ (l : List Char) (i : Nat),
    (l.map sanitizeChar).getD i ' ' = sanitizeChar (l.getD i ' ') := by
  intro l
  induction l with
  | nil => intro i; simp only [List.map_nil, List.getD_nil]; decide
  | cons c cs ih =>
    intro i
    cases i with
    | zero => simp
    | succ j => simpa using ih j

lemma bad_not_mem_sanitized (c : Char) (hc : badChar c = true) (l : List Char) :
    c ∉ l.map sanitizeChar := by
  intro hmem
  rcases List.mem_map.mp hmem with ⟨a, _, ha⟩
  by_cases hb : badChar a = true
  · simp only [sanitizeChar, hb, if_true] at ha
    rw [← ha] at hc
    exact absurd hc (by decide)
  · simp only [sanitizeChar, hb, Bool.false_eq_true, if_false] at ha
    rw [← ha] at hc
    exact hb hc

/-- Claim C9: filename sanitization is a deterministic function of the
title (it is a pure function of the title in the model, as in the code):
the output has the same length as the input, the character at every
position is the input's character with each member of the replaced class
(which includes ':', '/', '?') mapped to an underscore, and consequently
no ':', '/' or '?' survives into the computed filename. -/
theorem c9_filename_sanitization (t : String) (i : Nat) :
    (filenameSafe t).data.length = t.data.length ∧
    (filenameSafe t).data.getD i ' ' =
      (if badChar (t.data.getD i ' ') then '_' else t.data.getD i ' ') ∧
    ':' ∉ (filenameSafe t).data ∧ '/' ∉ (filenameSafe t).data ∧
    '?' ∉ (filenameSafe t).data := by
  refine ⟨by simp [filenameSafe], ?_, ?_, ?_, ?_⟩
  · simpa [filenameSafe, sanitizeChar] using getD_map_sanitize t.data i
  · exact bad_not_mem_sanitized ':' (by decide) t.data
  · exact bad_not_mem_sanitized '/' (by decide) t.data
  · exact bad_not_mem_sanitized '?' (by decide) t.data

end OdyseeDL

namespace OdyseeDL

/-! ### Pagination termination -/

/-- The fetch count the specification predicts (named from the spec
sentence, as the comparator for the refinement claim): one listing
fetch per page, walking until and including the first page that is
empty or contains fewer items than the page size. -/
def specFetches (pageSize : Nat) : List PageResult → Nat
  | [] => 0
  | .err :: _ => 1
  | .ok items :: rest =>
    if items.isEmpty then 1
    else if items.length < pageSize then 1
    else 1 + specFetches pageSize rest

lemma cutoffHit_none (cfg : Config) (it : Item) (h : cfg.oldestDate = none) :
    cutoffHit cfg it = false := by
  simp [cutoffHit, h]

lemma lookahead_empty (cfg : Config) (st : St) (rest : List Item)
    (h1 : st.knownUrls = []) (h2 : st.knownBasenames = []) :
    lookaheadKnown cfg st rest = false := by
  simp [lookaheadKnown, h1, h2]

lemma processOne_noRss (cfg : Config) (h : cfg.rss = false) (st : St) (it : Item) :
    (processOne cfg st it).records = st.records ∧
    (processOne cfg st it).knownUrls = st.knownUrls ∧
    (processOne cfg st it).knownBasenames = st.knownBasenames := by
  unfold processOne
  dsimp only
  simp only [h, Bool.false_eq_true, if_false]
  repeat' split
  all_goals simp

lemma procItems_noRss (cfg : Config) (h : cfg.rss = false) :
    ∀ (l : List Item) (st : St), st.knownUrls = [] → st.knownBasenames = [] →
      (procItems cfg st l).records = st.records ∧
      (procItems cfg st l).knownUrls = [] ∧
      (procItems cfg st l).knownBasenames = [] ∧
      (cfg.oldestDate = none → (procItems cfg st l).processing = st.processing) := by
  intro l
  induction l with
  | nil => intro st hu hb; exact ⟨rfl, hu, hb, fun _ => rfl⟩
  | cons it rest ih =>
    intro st hu hb
    have hla : lookaheadKnown cfg st rest = false := lookahead_empty cfg st rest hu hb
    simp only [procItems, hla, Bool.false_eq_true, if_false]
    by_cases hc : cutoffHit cfg it
    · simp only [hc, if_true]
      exact ⟨trivial, hu, hb, fun hn => absurd hc (by simp [cutoffHit_none cfg it hn])⟩
    · simp only [hc, Bool.false_eq_true, if_false]
      obtain ⟨p1, p2, p3⟩ := processOne_noRss cfg h st it
      obtain ⟨q1, q2, q3, q4⟩ := ih (processOne cfg st it) (p2.trans hu) (p3.trans hb)
      exact ⟨q1.trans p1, q2, q3, fun hn => (q4 hn).trans (processOne_processing cfg st it)⟩

lemma walkPages_count_noRss (cfg : Config) (h1 : cfg.rss = false)
    (h2 : cfg.oldestDate = none) :
    ∀ (ps : List PageResult) (st : St), st.processing = true →
      st.knownUrls = [] → st.knownBasenames = [] → PageResult.err ∉ ps →
      (walkPages cfg st ps).fetchCount = st.fetchCount + specFetches cfg.pageSize ps := by
  intro ps
  induction ps with
  | nil => intro st hp hu hb he; simp [walkPages, specFetches]
  | cons pr rest ih =>
    intro st hp hu hb he
    obtain ⟨re, ku, kb, dk, fe, fc, prc, le⟩ := st
    dsimp only at hp hu hb
    subst hp; subst hu; subst hb
    cases pr with
    | err => exact absurd (List.mem_cons_self _ _) he
    | ok items =>
      simp only [walkPages, eq_self_iff_true, if_true]
      by_cases hemp : items.isEmpty
      · simp [hemp, specFetches]
      · simp only [hemp, Bool.false_eq_true, if_false]
        obtain ⟨q1, q2, q3, q4⟩ :=
          procItems_noRss cfg h1 items ⟨re, [], [], dk, fe, fc + 1, true, le⟩ rfl rfl
        have hp2 : (procItems cfg ⟨re, [], [], dk, fe, fc + 1, true, le⟩ items).processing
            = true := by rw [q4 h2]
        simp only [hp2, if_true]
        by_cases hshort : items.length < cfg.pageSize
        · simp [hshort, specFetches, hemp, procItems_fetchCount]
        · simp only [hshort, if_false]
          rw [ih _ hp2 q2 q3 (fun hmem => he (List.mem_cons_of_mem _ hmem)),
            procItems_fetchCount]
          simp [specFetches, hemp, hshort]
          omega

/-- Claim C6: with all listing fetches succeeding and the other stopping
rules out of play (no cutoff configured, feed option off so the known
sets stay empty and the lookahead cannot fire), the page walk issues one
listing fetch per page and terminates exactly at the first page that is
empty or contains fewer items than the configured page size — the fetch
count equals the spec-predicted `specFetches`. -/
theorem c6_pagination_termination (cfg : Config) (cache : Option (List CacheRecord))
    (disk : List String) (pages : List PageResult)
    (h1 : cfg.rss = false) (h2 : cfg.oldestDate = none)
    (h3 : PageResult.err ∉ pages) :
    (run cfg cache disk pages).final.fetchCount = specFetches cfg.pageSize pages := by
  have hinit : initSt cfg.rss cache disk = initSt false cache disk := by rw [h1]
  have hbase : initSt false cache disk
      = { records := [], knownUrls := [], knownBasenames := [], disk := disk,
          fetched := [], fetchCount := 0, processing := true, listErr := false } := by
    cases cache <;> rfl
  show (walkPages cfg (initSt cfg.rss cache disk) pages).fetchCount = specFetches cfg.pageSize pages
  rw [hinit, hbase]
  rw [walkPages_count_noRss cfg h1 h2 pages _ rfl rfl rfl h3]
  simp

/-- A page of `n` cheap items (distinct titles, resolution fails so the
items are skipped without touching the disk). -/
def mkItems (n : Nat) (tag : String) : List Item :=
  (List.range n).map fun i =>
    { title := tag ++ toString i, date := none, url := tag ++ toString i,
      resolve := .fails, dlOk := true }

/-- Feed-disabled configuration with page size 50. -/
def pageCfg : Config :=
  { outputDir := "o", pageSize := 50, oldestDate := none, audioOnly := false,
    rss := false, podcastUrlPrefix := "p" }

/-- The spec's pagination scenario: successive pages of sizes 50, 50, 10. -/
def threePages : List PageResult :=
  [.ok (mkItems 50 "a"), .ok (mkItems 50 "b"), .ok (mkItems 10 "c")]

/-- Witness for claim C6: pages of sizes [50, 50, 10] with page size 50
trigger exactly 3 listing fetches. -/
theorem c6_pagination_witness :
    pageCfg.rss = false ∧ pageCfg.oldestDate = none ∧ PageResult.err ∉ threePages ∧
    (run pageCfg none [] threePages).final.fetchCount = specFetches pageCfg.pageSize threePages ∧
    specFetches pageCfg.pageSize threePages = 3 := by
  refine ⟨rfl, rfl, by decide, ?_, by decide⟩
  exact c6_pagination_termination pageCfg none [] threePages rfl rfl (by decide)

end OdyseeDL

namespace OdyseeDL

/-! ### Runs without the feed option -/

/-- The per-page item loop with the lookahead dedup short-circuit
removed — the comparison definition used to state that with the feed
option disabled the lookahead can never affect a run. -/
def procItemsNL (cfg : Config) : St → List Item → St
  | st, [] => st
  | st, it :: rest =>
    if cutoffHit cfg it then { st with processing := false }
    else procItemsNL cfg (processOne cfg st it) rest

/-- The pagination loop built on the lookahead-free item loop. -/
def walkPagesNL (cfg : Config) : St → List PageResult → St
  | st, [] => st
  | st, pr :: rest =>
    if st.processing then
      match pr with
      | .err => { st with fetchCount := st.fetchCount + 1, listErr := true }
      | .ok items =>
        let stf : St := { st with fetchCount := st.fetchCount + 1 }
        if items.isEmpty then stf
        else
          let st2 := procItemsNL cfg stf items
          if st2.processing then
            if items.length < cfg.pageSize then st2
            else walkPagesNL cfg st2 rest
          else st2
    else st

lemma procItems_eq_noLookahead (cfg : Config) (h : cfg.rss = false) :
    ∀ (l : List Item) (st : St), st.knownUrls = [] → st.knownBasenames = [] →
      procItems cfg st l = procItemsNL cfg st l := by
  intro l
  induction l with
  | nil => intro st hu hb; rfl
  | cons it rest ih =>
    intro st hu hb
    have hla : lookaheadKnown cfg st rest = false := lookahead_empty cfg st rest hu hb
    simp only [procItems, procItemsNL, hla, Bool.false_eq_true, if_false]
    by_cases hc : cutoffHit cfg it
    · simp [hc]
    · simp only [hc, Bool.false_eq_true, if_false]
      obtain ⟨p1, p2, p3⟩ := processOne_noRss cfg h st it
      exact ih (processOne cfg st it) (p2.trans hu) (p3.trans hb)

lemma walkPages_noRss (cfg : Config) (h : cfg.rss = false) :
    ∀ (ps : List PageResult) (st : St), st.knownUrls = [] → st.knownBasenames = [] →
      (walkPages cfg st ps).records = st.records ∧
      (walkPages cfg st ps).knownUrls = [] ∧
      (walkPages cfg st ps).knownBasenames = [] ∧
      walkPages cfg st ps = walkPagesNL cfg st ps := by
  intro ps
  induction ps with
  | nil => intro st hu hb; exact ⟨rfl, hu, hb, rfl⟩
  | cons pr rest ih =>
    intro st hu hb
    obtain ⟨re, ku, kb, dk, fe, fc, prc, le⟩ := st
    dsimp only at hu hb
    subst hu; subst hb
    cases prc with
    | false => simp [walkPages, walkPagesNL]
    | true =>
      cases pr with
      | err => simp [walkPages, walkPagesNL]
      | ok items =>
        simp only [walkPages, walkPagesNL, eq_self_iff_true, if_true]
        by_cases hemp : items.isEmpty
        · simp [hemp]
        · simp only [hemp, Bool.false_eq_true, if_false]
          obtain ⟨q1, q2, q3, q4⟩ :=
            procItems_noRss cfg h items ⟨re, [], [], dk, fe, fc + 1, true, le⟩ rfl rfl
          have heqNL := procItems_eq_noLookahead cfg h items
            ⟨re, [], [], dk, fe, fc + 1, true, le⟩ rfl rfl
          rw [← heqNL]
          by_cases hp2 :
            (procItems cfg ⟨re, [], [], dk, fe, fc + 1, true, le⟩ items).processing = true
          · simp only [hp2, if_true]
            by_cases hshort : items.length < cfg.pageSize
            · simp only [hshort, if_true]
              exact ⟨q1, q2, q3, trivial⟩
            · simp only [hshort, if_false]
              obtain ⟨w1, w2, w3, w4⟩ := ih _ q2 q3
              exact ⟨w1.trans q1, w2, w3, w4⟩
          · have hp2' :
                (procItems cfg ⟨re, [], [], dk, fe, fc + 1, true, le⟩ items).processing
                  = false := by simpa using hp2
            simp only [hp2', Bool.false_eq_true, if_false]
            exact ⟨q1, q2, q3, trivial⟩

/-- Claim C10: with the feed (rss) option disabled, the persisted cache
is never consulted (a run with any cache equals the run with no cache),
the known-URL and known-basename sets stay empty for the whole run, no
CacheRecord is ever appended (the saved cache is empty and no feed is
emitted), and the lookahead dedup short-circuit can never halt the
walk: the run behaves exactly like the lookahead-free walk, leaving the
on-disk-exists skip as the only dedup in effect. -/
theorem c10_no_feed_no_cache_no_lookahead (cfg : Config)
    (cache : Option (List CacheRecord)) (disk : List String)
    (pages : List PageResult) (h : cfg.rss = false) :
    run cfg cache disk pages = run cfg none disk pages ∧
    (run cfg cache disk pages).saved = [] ∧
    (run cfg cache disk pages).final.knownUrls = [] ∧
    (run cfg cache disk pages).final.knownBasenames = [] ∧
    (run cfg cache disk pages).feed = none ∧
    (run cfg cache disk pages).final
      = walkPagesNL cfg (initSt cfg.rss cache disk) pages := by
  have hinit : initSt cfg.rss cache disk
      = { records := [], knownUrls := [], knownBasenames := [], disk := disk,
          fetched := [], fetchCount := 0, processing := true, listErr := false } := by
    rw [h]; cases cache <;> rfl
  obtain ⟨w1, w2, w3, w4⟩ := walkPages_noRss cfg h pages (initSt cfg.rss cache disk)
    (by rw [hinit]) (by rw [hinit])
  refine ⟨?_, ?_, w2, w3, ?_, w4⟩
  · show run cfg cache disk pages = run cfg none disk pages
    unfold run
    have e1 : initSt cfg.rss cache disk = initSt cfg.rss none disk := by
      rw [h]; cases cache <;> rfl
    rw [e1]
  · show (walkPages cfg (initSt cfg.rss cache disk) pages).records = []
    rw [w1, hinit]
  · show (run cfg cache disk pages).feed = none
    simp [run, h]

/-- Witness for claim C10: a feed-disabled run against a nonempty cache
file reads nothing from it, saves an empty record list and emits no
feed. -/
theorem c10_no_feed_witness :
    pageCfg.rss = false ∧
    run pageCfg (some [cachedRec3]) ["x"] [.ok [itemA]]
        = run pageCfg none ["x"] [.ok [itemA]] ∧
    (run pageCfg (some [cachedRec3]) ["x"] [.ok [itemA]]).saved = [] ∧
    (run pageCfg (some [cachedRec3]) ["x"] [.ok [itemA]]).feed = none := by
  refine ⟨rfl, ?_, ?_, ?_⟩
  · exact (c10_no_feed_no_cache_no_lookahead pageCfg (some [cachedRec3]) ["x"]
      [.ok [itemA]] rfl).1
  · exact (c10_no_feed_no_cache_no_lookahead pageCfg (some [cachedRec3]) ["x"]
      [.ok [itemA]] rfl).2.1
  · exact (c10_no_feed_no_cache_no_lookahead pageCfg (some [cachedRec3]) ["x"]
      [.ok [itemA]] rfl).2.2.2.2.1

end OdyseeDL
